import Mathlib

/-!
Verification of the qerr capture program (src/qerr/capture_qerr.py).

The stream correlation engine (`collect_data`) and the dataflow handshake
(`verify_dataflow`) are embedded shallowly:

* Arrival timestamps (`datetime.datetime.now()`) are modelled as natural
  numbers counting microseconds; `datetime` has microsecond resolution, so
  this is exact.  A Python `timedelta` normalises into
  `(days, seconds, microseconds)` with `seconds < 86400` and
  `microseconds < 1000000`; the expression
  `time_diff.seconds * 1e6 + time_diff.microseconds` of line 126 therefore
  equals the total microsecond difference *modulo* 86400000000 (the days
  component is dropped).  All arithmetic fits well below 2^53 so the float
  computation of line 126 is exact and is modelled over Nat.
* The `parsed_data` dictionaries built on lines 89-103 and 108-120 are
  modelled as insertion-ordered association lists from column name to an
  integer value (all numeric/flag fields, and the embedded timestamps, are
  carried as `Int`).
* The packet cache entries hold `valid/timestamp/parsed_data`; the code
  writes `timestamp` and `parsed_data` exactly when it sets `valid` and
  reads them only under `valid`, so a slot is modelled as
  `Option (Nat × Row)`.
* A read that times out or fails to decode yields a falsy `parsed_data`,
  modelled as `none`; a decoded message of an identity other than
  `TIM-TP` / `NAV-TIMEUTC` is `some .other`.
* The schema `df_refs[MERGED].columns` comes from `create_empty_df` in
  `qerr_utils`, which is not part of the sources; the engine is therefore
  parametrised by the schema column list, and a concrete schema is
  modelled from the spec where a closed evaluation needs one.
-/

namespace Qerr

/-- A cell value of a dataframe row (numeric fields, flags and embedded
timestamps are all carried as integers). -/
abbrev Value := Int

/-- A dataframe row: the insertion-ordered dict of column name to value. -/
abbrev Row := List (String × Value)

/-- Fields of a decoded UBX-TIM-TP message used by collect_data
(source lines 108-120). -/
structure TimTpPayload where
  towMS : Value
  towSubMS : Value
  qErr : Value
  week : Value
  timeBase : Value
  utc : Value
  raim : Value
  qErrInvalid : Value
  timeRefGnss : Value
  utcStandard : Value
deriving DecidableEq

/-- Fields of a decoded UBX-NAV-TIMEUTC message used by collect_data
(source lines 89-103); `minute` renders the source field `min`. -/
structure NavUtcPayload where
  iTOW : Value
  tAcc : Value
  year : Value
  month : Value
  day : Value
  hour : Value
  minute : Value
  sec : Value
  validTOW : Value
  validWKN : Value
  validUTC : Value
  utcStandard : Value
deriving DecidableEq

/-- The `parsed_data` dict built for a TIM-TP packet (lines 108-120),
with the arrival timestamp `t` embedded under its per-channel key. -/
def timTpParsedData (t : Nat) (p : TimTpPayload) : Row :=
  [("pkt_unix_timestamp_TIM-TP", (t : Int)),
   ("towMS (ms)", p.towMS),
   ("towSubMS", p.towSubMS),
   ("qErr (ps)", p.qErr),
   ("week (weeks)", p.week),
   ("timeBase_flag", p.timeBase),
   ("utc_flag", p.utc),
   ("raim_flag", p.raim),
   ("qErrInvalid_flag", p.qErrInvalid),
   ("timeRefGnss", p.timeRefGnss),
   ("utcStandard_TIM-TP", p.utcStandard)]

/-- The `parsed_data` dict built for a NAV-TIMEUTC packet (lines 89-103). -/
def navUtcParsedData (t : Nat) (p : NavUtcPayload) : Row :=
  [("pkt_unix_timestamp_NAV-TIMEUTC", (t : Int)),
   ("iTOW (ms)", p.iTOW),
   ("tAcc (ns)", p.tAcc),
   ("year", p.year),
   ("month", p.month),
   ("day", p.day),
   ("hour", p.hour),
   ("min", p.minute),
   ("sec", p.sec),
   ("validTOW_flag", p.validTOW),
   ("validWKN_flag", p.validWKN),
   ("validUTC_flag", p.validUTC),
   ("utcStandard_NAV-TIMEUTC", p.utcStandard)]

/-- Result of one `ubr.read()`: a decoded message of one of the two
identities of interest, some other identity, or a falsy `parsed_data`
(decode failure / read timeout). -/
inductive ParsedData where
  | timTp (p : TimTpPayload)
  | navUtc (p : NavUtcPayload)
  | other
deriving DecidableEq

/-- One iteration's input to the collect_data loop: the read result and
the wall-clock microsecond timestamp taken right after the read
(line 82). -/
structure Input where
  parsed : Option ParsedData
  t : Nat
deriving DecidableEq

/-- The mutable state of collect_data: the two packet-cache slots
(lines 67-78) and the three dataframes `df_refs` (MERGED, TIM-TP,
NAV-TIMEUTC). -/
structure EngineState where
  tp : Option (Nat × Row)
  nav : Option (Nat × Row)
  merged : List Row
  tpTable : List Row
  navTable : List Row
deriving DecidableEq

/-- Fresh state: empty cache, empty dataframes. -/
def initState : EngineState := ⟨none, none, [], [], []⟩

/-- Absolute difference of two microsecond timestamps. -/
def absDiff (a b : Nat) : Nat := max a b - min a b

/-- Microseconds in one day: the normalisation modulus of a Python
timedelta's `(seconds, microseconds)` components. -/
def microsecPerDay : Nat := 86400000000

/-- The value of `time_diff.seconds * 1e6 + time_diff.microseconds`
(line 126): the total microsecond difference with the days component of
the timedelta dropped. -/
def microsecTimeDiff (t1 t2 : Nat) : Nat := absDiff t1 t2 % microsecPerDay

/-- Column names of a row, in order. -/
def rowKeys (r : Row) : List String := r.map Prod.fst

/-- The key-set comparison `set(merged_data.keys()) != set(columns)` of
lines 135-137, as a Boolean equality of key sets. -/
def keySetEq (a b : List String) : Bool := decide (a.toFinset = b.toFinset)

/-- Lines 84-120: add the parsed data to the cache, overwriting the
channel's slot; other identities and falsy reads leave the cache
unchanged. -/
def cacheUpdate (s : EngineState) (inp : Input) : EngineState :=
  match inp.parsed with
  | some (.navUtc p) => { s with nav := some (inp.t, navUtcParsedData inp.t p) }
  | some (.timTp p) => { s with tp := some (inp.t, timTpParsedData inp.t p) }
  | _ => s

/-- One iteration of the collect_data loop body (lines 79-165) after the
read: cache update, then — if both slots are occupied — merge inside the
window (appending the merged row and both per-channel rows, clearing both
slots), raise `KeyError` on a schema mismatch (second component `true`,
before any append), or flush the earlier packet to its own table and
clear only its slot when the window is exceeded. -/
def collectStep (schema : List String) (s : EngineState) (inp : Input) :
    EngineState × Bool :=
  match (cacheUpdate s inp).tp, (cacheUpdate s inp).nav with
  | some tpSlot, some navSlot =>
    if microsecTimeDiff tpSlot.1 navSlot.1 < 1000000 then
      if keySetEq (rowKeys (tpSlot.2 ++ navSlot.2)) schema then
        ({ tp := none, nav := none,
           merged := (cacheUpdate s inp).merged ++ [tpSlot.2 ++ navSlot.2],
           tpTable := (cacheUpdate s inp).tpTable ++ [tpSlot.2],
           navTable := (cacheUpdate s inp).navTable ++ [navSlot.2] }, false)
      else (cacheUpdate s inp, true)
    else if tpSlot.1 < navSlot.1 then
      ({ cacheUpdate s inp with
           tpTable := (cacheUpdate s inp).tpTable ++ [tpSlot.2], tp := none }, false)
    else
      ({ cacheUpdate s inp with
           navTable := (cacheUpdate s inp).navTable ++ [navSlot.2], nav := none }, false)
  | _, _ => (cacheUpdate s inp, false)

/-- The collect_data loop run on a finite input sequence.  The list
ending models the external cancellation (KeyboardInterrupt observed at
the blocking read); the second component is `true` when the loop aborted
with the schema KeyError, and the returned state is the state at loop
exit. -/
def collectRun (schema : List String) : EngineState → List Input → EngineState × Bool
  | s, [] => (s, false)
  | s, inp :: rest =>
    match collectStep schema s inp with
    | (s1, false) => collectRun schema s1 rest
    | (s1, true) => (s1, true)

/-- The three tables as handed to persistence. -/
structure Tables where
  merged : List Row
  tpTable : List Row
  navTable : List Row
deriving DecidableEq

/-- Project the three dataframes out of an engine state. -/
def tablesOf (s : EngineState) : Tables := ⟨s.merged, s.tpTable, s.navTable⟩

/-- The `finally` block of start (lines 191-196): after collect_data
exits — by cancellation or by the fatal KeyError — each dataframe is
saved exactly as it is, with no further flush of the packet cache. -/
def persistedTables (schema : List String) (l : List Input) : Tables :=
  tablesOf (collectRun schema initState l).1

/-- Identity test `parsed_data.identity == 'NAV-TIMEUTC'`. -/
def isNavUtc : ParsedData → Bool
  | .navUtc _ => true
  | _ => false

/-- Identity test `parsed_data.identity == 'TIM-TP'`. -/
def isTimTp : ParsedData → Bool
  | .timTp _ => true
  | _ => false

/-- Whether one read result sets the NAV-TIMEUTC flag of
verify_dataflow (a falsy read sets nothing). -/
def hitNav (r : Option ParsedData) : Bool :=
  match r with
  | some pd => isNavUtc pd
  | none => false

/-- Whether one read result sets the TIM-TP flag of verify_dataflow. -/
def hitTp (r : Option ParsedData) : Bool :=
  match r with
  | some pd => isTimTp pd
  | none => false

/-- The `for i in range(1000)` loop of verify_dataflow (lines 51-58) over
the remaining read results, carrying the two `packet_id_flags` and the
current loop index: update the flags from the read, return success as
soon as both are set, and fall out of the loop with the final flags
otherwise (the raise of line 59, whose diagnostic prints the flags
dict). -/
def verifyList : List (Option ParsedData) → Bool → Bool → Nat →
    Except (Bool × Bool) Nat
  | [], navFlag, tpFlag, _ => .error (navFlag, tpFlag)
  | r :: rest, navFlag, tpFlag, i =>
    let nf := navFlag || hitNav r
    let tf := tpFlag || hitTp r
    if nf && tf then .ok i else verifyList rest nf tf (i + 1)

/-- verify_dataflow (lines 43-59) on a stream of read results: up to 1000
reads, flags initially false.  `.ok i` is the Python `return True`
(decorated with the loop index at which it fired); `.error (navFlag,
tpFlag)` is the Exception of line 59 carrying the flags dict named in its
diagnostic. -/
def verifyDataflow (reads : Nat → Option ParsedData) : Except (Bool × Bool) Nat :=
  verifyList ((List.range 1000).map reads) false false 0

/-- Whether some read result in the list sets the given flag. -/
def seenIn (rs : List (Option ParsedData)) (hit : Option ParsedData → Bool) : Bool :=
  rs.any hit

/-- Whether one of the first `n` reads of the stream sets the given flag. -/
def seenWithin (reads : Nat → Option ParsedData) (hit : Option ParsedData → Bool)
    (n : Nat) : Bool :=
  seenIn ((List.range n).map reads) hit

/-- The start sequence (lines 167-196): verify_dataflow runs before the
dataframes are created and before collect_data; its Exception propagates
out of start, so on a verification failure no collection happens and no
tables are produced.  On success the session ends with the saved
tables. -/
def startModel (schema : List String) (reads : Nat → Option ParsedData)
    (l : List Input) : Except (Bool × Bool) Tables :=
  match verifyDataflow reads with
  | .error e => .error e
  | .ok _ => .ok (persistedTables schema l)

/-- Modelled from the spec: the declared Merged-table schema, i.e. the
columns of `create_empty_df('MERGED')` from `qerr_utils`, a file not
present in the sources.  Per the spec (§3, §4.2 step 3b) the registered
output schema is exactly the union of the TIM-TP and NAV-TIMEUTC field
keys, which do not collide. -/
def declaredMergedSchema : List String :=
  ["pkt_unix_timestamp_TIM-TP", "towMS (ms)", "towSubMS", "qErr (ps)",
   "week (weeks)", "timeBase_flag", "utc_flag", "raim_flag",
   "qErrInvalid_flag", "timeRefGnss", "utcStandard_TIM-TP",
   "pkt_unix_timestamp_NAV-TIMEUTC", "iTOW (ms)", "tAcc (ns)", "year",
   "month", "day", "hour", "min", "sec", "validTOW_flag", "validWKN_flag",
   "validUTC_flag", "utcStandard_NAV-TIMEUTC"]

/-- An all-zero TIM-TP payload, used for concrete evaluations. -/
def pay0 : TimTpPayload := ⟨0, 0, 0, 0, 0, 0, 0, 0, 0, 0⟩

/-- An all-zero NAV-TIMEUTC payload, used for concrete evaluations. -/
def nav0 : NavUtcPayload := ⟨0, 0, 0, 0, 0, 0, 0, 0, 0, 0, 0, 0⟩


/-- State with a TIM-TP packet pending since timestamp 0 and empty
tables. -/
def c1State : EngineState :=
  { initState with tp := some (0, timTpParsedData 0 pay0) }

/-- A NAV-TIMEUTC packet arriving exactly one day after the pending
TIM-TP packet. -/
def c1Input : Input := ⟨some (.navUtc nav0), 86400000000⟩

/-- State with a TIM-TP packet pending since timestamp 1 and empty
tables, for the window-exceeded claim. -/
def c4State : EngineState :=
  { initState with tp := some (1, timTpParsedData 1 pay0) }

/-- A NAV-TIMEUTC packet arriving exactly one day after the pending
TIM-TP packet stamped 1. -/
def c4Input : Input := ⟨some (.navUtc nav0), 86400000001⟩

/-- Inputs for the C2 counterexample: a TIM-TP arrival at 0 µs and a
NAV-TIMEUTC arrival at 500000 µs, well inside the window. -/
def c2Inputs : List Input :=
  [⟨some (.timTp pay0), 0⟩, ⟨some (.navUtc nav0), 500000⟩]

/-- Input for the C3 counterexample: a single TIM-TP arrival, then
cancellation. -/
def c3Inputs : List Input := [⟨some (.timTp pay0), 0⟩]

/-- Inputs for the C3 amended-claim witness: a single NAV-TIMEUTC
arrival, then cancellation. -/
def c3wInputs : List Input := [⟨some (.navUtc nav0), 3⟩]

/-- The engine state reached by running on `c3wInputs`. -/
def c3wState : EngineState :=
  { initState with nav := some (3, navUtcParsedData 3 nav0) }

/-- State with a TIM-TP packet pending, for the C6 witness. -/
def c6wState : EngineState :=
  { initState with tp := some (7, timTpParsedData 7 pay0) }

/-- A NAV-TIMEUTC arrival one microsecond after the pending TIM-TP
packet, for the C6 witness. -/
def c6wInput : Input := ⟨some (.navUtc nav0), 8⟩

/-- State with a TIM-TP packet pending since timestamp 42, for the C8
witness. -/
def c8wState : EngineState :=
  { initState with tp := some (42, timTpParsedData 42 pay0) }

/-- Inputs reaching `c8wState` from the fresh state. -/
def c8wInputs : List Input := [⟨some (.timTp pay0), 42⟩]

/-- Inputs for the C9 witness: an in-window TIM-TP / NAV-TIMEUTC pair. -/
def c9Inputs : List Input :=
  [⟨some (.timTp pay0), 10⟩, ⟨some (.navUtc nav0), 400000⟩]

/-- State with a TIM-TP packet pending since timestamp 17, for the C10
witness. -/
def w10State : EngineState :=
  { initState with tp := some (17, timTpParsedData 17 pay0) }

/-- Inputs reaching `w10State` from the fresh state. -/
def w10Inputs : List Input := [⟨some (.timTp pay0), 17⟩]

/-- A read stream delivering a TIM-TP message first and a NAV-TIMEUTC
message second, for the C7 witness. -/
def wReads : Nat → Option ParsedData := fun i =>
  if i = 0 then some (.timTp pay0) else if i = 1 then some (.navUtc nav0) else none

/-- The column key under which a TIM-TP row embeds its arrival
timestamp. -/
def tpTsKey : String := "pkt_unix_timestamp_TIM-TP"

/-- The column key under which a NAV-TIMEUTC row embeds its arrival
timestamp. -/
def navTsKey : String := "pkt_unix_timestamp_NAV-TIMEUTC"

/-- A row does not carry the arrival timestamp `T` under the timestamp
column `k` of one of the two channels.  The row of a packet of that
channel received at `T` violates this, and two rows of one channel with
different embedded timestamps are distinct, so this is how "the record
of the arrival at `T` does not appear here" is expressed. -/
def rowAvoids (k : String) (T : Nat) (r : Row) : Prop :=
  ¬ (r.lookup k = some (T : Int))

/-- No table row, merged row or cached slot row of the state carries the
arrival timestamp `T` under the channel timestamp column `k`. -/
def stateAvoids (k : String) (T : Nat) (s : EngineState) : Prop :=
  (∀ r ∈ s.merged, rowAvoids k T r) ∧
  (∀ r ∈ s.tpTable, rowAvoids k T r) ∧
  (∀ r ∈ s.navTable, rowAvoids k T r) ∧
  (∀ x : Nat × Row, s.tp = some x → rowAvoids k T x.2) ∧
  (∀ x : Nat × Row, s.nav = some x → rowAvoids k T x.2)

/-- State with a TIM-TP packet pending since timestamp 0, for the C5
witness. -/
def c5wState : EngineState :=
  { initState with tp := some (0, timTpParsedData 0 pay0) }

/-- Trailing inputs after the overwrite, for the C5 witness. -/
def c5wTail : List Input := [⟨some (.navUtc nav0), 6⟩]

/-- State with a NAV-TIMEUTC packet pending since timestamp 0, for the
C5 witness (NAV-TIMEUTC overwrite case). -/
def c5wStateNav : EngineState :=
  { initState with nav := some (0, navUtcParsedData 0 nav0) }

/-- Trailing inputs after the NAV-TIMEUTC overwrite, for the C5
witness. -/
def c5wTailNav : List Input := [⟨some (.timTp pay0), 6⟩]

/-- The cache update never touches the MERGED dataframe. -/
theorem cacheUpdate_merged (s : EngineState) (inp : Input) :
    (cacheUpdate s inp).merged = s.merged := by
  unfold cacheUpdate
  rcases inp with ⟨p, t⟩
  cases p with
  | none => rfl
  | some q => cases q <;> rfl

/-- The cache update never touches the TIM-TP dataframe. -/
theorem cacheUpdate_tpTable (s : EngineState) (inp : Input) :
    (cacheUpdate s inp).tpTable = s.tpTable := by
  unfold cacheUpdate
  rcases inp with ⟨p, t⟩
  cases p with
  | none => rfl
  | some q => cases q <;> rfl

/-- The cache update never touches the NAV-TIMEUTC dataframe. -/
theorem cacheUpdate_navTable (s : EngineState) (inp : Input) :
    (cacheUpdate s inp).navTable = s.navTable := by
  unfold cacheUpdate
  rcases inp with ⟨p, t⟩
  cases p with
  | none => rfl
  | some q => cases q <;> rfl

/-- The cache update leaves all three dataframes untouched. -/
theorem cacheUpdate_tablesOf (s : EngineState) (inp : Input) :
    tablesOf (cacheUpdate s inp) = tablesOf s := by
  unfold tablesOf
  rw [cacheUpdate_merged, cacheUpdate_tpTable, cacheUpdate_navTable]

/-- A step that does not raise ends with at most one occupied slot: a
merge clears both slots, a window-exceeded flush clears one, and in the
remaining case at most one slot was filled by the cache update. -/
theorem collectStep_atMostOne (schema : List String) (s : EngineState) (inp : Input)
    (s2 : EngineState) (hs : collectStep schema s inp = (s2, false)) :
    s2.tp = none ∨ s2.nav = none := by
  unfold collectStep at hs
  cases htp : (cacheUpdate s inp).tp with
  | none =>
    rw [htp] at hs
    cases hnv : (cacheUpdate s inp).nav <;> rw [hnv] at hs <;>
      · injection hs with h1 h2
        subst h1
        exact Or.inl htp
  | some tpSlot =>
    rw [htp] at hs
    cases hnv : (cacheUpdate s inp).nav with
    | none =>
      rw [hnv] at hs
      injection hs with h1 h2
      subst h1
      exact Or.inr hnv
    | some navSlot =>
      rw [hnv] at hs
      simp only at hs
      split at hs
      · split at hs
        · injection hs with h1 h2
          subst h1
          exact Or.inl rfl
        · injection hs with h1 h2
          cases h2
      · split at hs
        · injection hs with h1 h2
          subst h1
          exact Or.inl rfl
        · injection hs with h1 h2
          subst h1
          exact Or.inr rfl

/-- A property preserved by every non-raising step is preserved by every
run that completes without raising. -/
theorem collectRun_preserved (schema : List String) (P : EngineState → Prop)
    (hstep : ∀ s inp s1, P s → collectStep schema s inp = (s1, false) → P s1) :
    ∀ l s s1, P s → collectRun schema s l = (s1, false) → P s1 := by
  intro l
  induction l with
  | nil =>
    intro s s1 hP h
    simp only [collectRun] at h
    injection h with h1 h2
    subst h1
    exact hP
  | cons i rest ih =>
    intro s s1 hP h
    simp only [collectRun] at h
    cases hst : collectStep schema s i with
    | mk s2 flag =>
      rw [hst] at h
      cases flag with
      | false => exact ih s2 s1 (hstep s i s2 hP hst) h
      | true =>
        simp only at h
        injection h with h1 h2
        cases h2

/-- A property preserved by every step over the inputs of the list holds
of the state at loop exit, whether the run completed or raised. -/
theorem collectRun_preservedAll (schema : List String) (P : EngineState → Prop) :
    ∀ l, (∀ s inp, inp ∈ l → P s → P (collectStep schema s inp).1) →
    ∀ s, P s → P (collectRun schema s l).1 := by
  intro l
  induction l with
  | nil => intro _ s hP; exact hP
  | cons i rest ih =>
    intro hstep s hP
    simp only [collectRun]
    cases hst : collectStep schema s i with
    | mk s2 flag =>
      have hP2 : P s2 := by
        have := hstep s i (List.mem_cons_self i rest) hP
        rwa [hst] at this
      cases flag with
      | false =>
        exact ih (fun s inp hm hp => hstep s inp (List.mem_cons_of_mem i hm) hp) s2 hP2
      | true => exact hP2

/-- Any completed run from the fresh state ends with at most one
occupied slot. -/
theorem runAtMostOne (schema : List String) :
    ∀ l s, collectRun schema initState l = (s, false) →
    s.tp = none ∨ s.nav = none := by
  intro l s h
  exact collectRun_preserved schema (fun s => s.tp = none ∨ s.nav = none)
    (fun s inp s1 _ hs => collectStep_atMostOne schema s inp s1 hs)
    l initState s (Or.inl rfl) h

/-- One step preserves the invariant that every merged row is the
concatenation of a row present in the TIM-TP table and a row present in
the NAV-TIMEUTC table: the write transaction of lines 144-148 appends
all three rows together. -/
theorem collectStep_mergedFrom (schema : List String) (s : EngineState) (inp : Input)
    (hP : ∀ m ∈ s.merged, ∃ rt ∈ s.tpTable, ∃ rn ∈ s.navTable, m = rt ++ rn) :
    ∀ m ∈ (collectStep schema s inp).1.merged,
      ∃ rt ∈ (collectStep schema s inp).1.tpTable,
        ∃ rn ∈ (collectStep schema s inp).1.navTable, m = rt ++ rn := by
  unfold collectStep
  cases htp : (cacheUpdate s inp).tp with
  | none =>
    cases hnv : (cacheUpdate s inp).nav <;>
      simp only [htp, hnv, cacheUpdate_merged, cacheUpdate_tpTable,
        cacheUpdate_navTable] <;> exact hP
  | some tpSlot =>
    cases hnv : (cacheUpdate s inp).nav with
    | none =>
      simp only [htp, hnv, cacheUpdate_merged, cacheUpdate_tpTable, cacheUpdate_navTable]
      exact hP
    | some navSlot =>
      simp only [htp, hnv]
      split
      · split
        · simp only [cacheUpdate_merged, cacheUpdate_tpTable, cacheUpdate_navTable]
          intro m hm
          rcases List.mem_append.1 hm with hold | hnew
          · obtain ⟨rt, hrt, rn, hrn, heq⟩ := hP m hold
            exact ⟨rt, List.mem_append_left _ hrt, rn, List.mem_append_left _ hrn, heq⟩
          · refine ⟨tpSlot.2, List.mem_append_right _ (List.mem_singleton.2 rfl),
              navSlot.2, List.mem_append_right _ (List.mem_singleton.2 rfl), ?_⟩
            exact List.mem_singleton.1 hnew
        · simp only [cacheUpdate_merged, cacheUpdate_tpTable, cacheUpdate_navTable]
          exact hP
      · split
        · simp only [cacheUpdate_merged, cacheUpdate_tpTable, cacheUpdate_navTable]
          intro m hm
          obtain ⟨rt, hrt, rn, hrn, heq⟩ := hP m hm
          exact ⟨rt, List.mem_append_left _ hrt, rn, hrn, heq⟩
        · simp only [cacheUpdate_merged, cacheUpdate_tpTable, cacheUpdate_navTable]
          intro m hm
          obtain ⟨rt, hrt, rn, hrn, heq⟩ := hP m hm
          exact ⟨rt, hrt, rn, List.mem_append_left _ hrn, heq⟩

/-- One step preserves the invariant that every merged row's key set
equals the declared schema: the merge appends only after the key-set
check of lines 135-143 succeeded. -/
theorem collectStep_mergedKeys (schema : List String) (s : EngineState) (inp : Input)
    (hP : ∀ m ∈ s.merged, (rowKeys m).toFinset = schema.toFinset) :
    ∀ m ∈ (collectStep schema s inp).1.merged,
      (rowKeys m).toFinset = schema.toFinset := by
  unfold collectStep
  cases htp : (cacheUpdate s inp).tp with
  | none =>
    cases hnv : (cacheUpdate s inp).nav <;>
      simp only [htp, hnv, cacheUpdate_merged] <;> exact hP
  | some tpSlot =>
    cases hnv : (cacheUpdate s inp).nav with
    | none =>
      simp only [htp, hnv, cacheUpdate_merged]
      exact hP
    | some navSlot =>
      simp only [htp, hnv]
      split
      · split
        · next hkeys =>
          simp only [cacheUpdate_merged]
          intro m hm
          rcases List.mem_append.1 hm with hold | hnew
          · exact hP m hold
          · rw [List.mem_singleton.1 hnew]
            exact of_decide_eq_true hkeys
        · simp only [cacheUpdate_merged]
          exact hP
      · split <;> simp only [cacheUpdate_merged] <;> exact hP

/-- When the verify loop exhausts its reads without returning, each
final flag says exactly whether some read of the list set it, and the
two final flags are not both set. -/
theorem verifyList_error (rs : List (Option ParsedData)) :
    ∀ (nf tf : Bool) (i : Nat) (fn ft : Bool), (nf && tf) = false →
    verifyList rs nf tf i = .error (fn, ft) →
    fn = (nf || seenIn rs hitNav) ∧ ft = (tf || seenIn rs hitTp) ∧
      (fn && ft) = false := by
  induction rs with
  | nil =>
    intro nf tf i fn ft hpre h
    simp only [verifyList, Except.error.injEq, Prod.mk.injEq] at h
    obtain ⟨h1, h2⟩ := h
    subst h1
    subst h2
    refine ⟨by simp [seenIn], by simp [seenIn], hpre⟩
  | cons r rest ih =>
    intro nf tf i fn ft hpre h
    simp only [verifyList] at h
    split at h
    · exact absurd h (by simp)
    · next hcond =>
      have hc : ((nf || hitNav r) && (tf || hitTp r)) = false := by
        revert hcond
        cases ((nf || hitNav r) && (tf || hitTp r)) <;> simp
      obtain ⟨h1, h2, h3⟩ := ih (nf || hitNav r) (tf || hitTp r) (i + 1) fn ft hc h
      refine ⟨?_, ?_, h3⟩
      · rw [h1]
        simp [seenIn, List.any_cons, Bool.or_assoc]
      · rw [h2]
        simp [seenIn, List.any_cons, Bool.or_assoc]

/-- When the verify loop returns success at index `n`, it did so at the
first prefix of reads whose results set both flags. -/
theorem verifyList_ok (rs : List (Option ParsedData)) :
    ∀ (nf tf : Bool) (i n : Nat),
    verifyList rs nf tf i = .ok n →
    ∃ k, k < rs.length ∧ n = i + k ∧
      ((nf || seenIn (rs.take (k+1)) hitNav) &&
        (tf || seenIn (rs.take (k+1)) hitTp)) = true ∧
      ∀ j, j < k →
        ((nf || seenIn (rs.take (j+1)) hitNav) &&
          (tf || seenIn (rs.take (j+1)) hitTp)) = false := by
  induction rs with
  | nil =>
    intro nf tf i n h
    simp only [verifyList] at h
    exact absurd h (by simp)
  | cons r rest ih =>
    intro nf tf i n h
    simp only [verifyList] at h
    split at h
    · next hcond =>
      refine ⟨0, by simp, ?_, ?_, ?_⟩
      · simp only [Except.ok.injEq] at h
        omega
      · simpa [seenIn, List.any_cons] using hcond
      · intro j hj
        omega
    · next hcond =>
      have hc : ((nf || hitNav r) && (tf || hitTp r)) = false := by
        revert hcond
        cases ((nf || hitNav r) && (tf || hitTp r)) <;> simp
      obtain ⟨k, hk, hn, hflags, hmin⟩ := ih (nf || hitNav r) (tf || hitTp r) (i + 1) n h
      refine ⟨k + 1, by simpa using Nat.succ_lt_succ hk, by omega, ?_, ?_⟩
      · simpa [seenIn, List.any_cons, Bool.or_assoc] using hflags
      · intro j hj
        cases j with
        | zero => simpa [seenIn, List.any_cons] using hc
        | succ j1 =>
          have := hmin j1 (by omega)
          simpa [seenIn, List.any_cons, Bool.or_assoc] using this

/-- The TIM-TP row embeds its arrival timestamp under the TIM-TP
timestamp key. -/
theorem timTp_lookup (t : Nat) (p : TimTpPayload) :
    (timTpParsedData t p).lookup tpTsKey = some (t : Int) := rfl

/-- A NAV-TIMEUTC row has no TIM-TP timestamp column. -/
theorem navUtc_lookup (t : Nat) (p : NavUtcPayload) :
    (navUtcParsedData t p).lookup tpTsKey = none := rfl

/-- The NAV-TIMEUTC row embeds its arrival timestamp under the
NAV-TIMEUTC timestamp key. -/
theorem navUtc_lookupNav (t : Nat) (p : NavUtcPayload) :
    (navUtcParsedData t p).lookup navTsKey = some (t : Int) := rfl

/-- A TIM-TP row has no NAV-TIMEUTC timestamp column. -/
theorem timTp_lookupNav (t : Nat) (p : TimTpPayload) :
    (timTpParsedData t p).lookup navTsKey = none := rfl

/-- A TIM-TP row stamped `t ≠ T` avoids `T` at the TIM-TP key. -/
theorem timTp_rowAvoids (T t : Nat) (p : TimTpPayload) (h : t ≠ T) :
    rowAvoids tpTsKey T (timTpParsedData t p) := by
  unfold rowAvoids
  rw [timTp_lookup]
  intro hc
  injection hc with hc2
  exact h (by exact_mod_cast hc2)

/-- Every NAV-TIMEUTC row avoids every timestamp at the TIM-TP key. -/
theorem navUtc_rowAvoids (T t : Nat) (p : NavUtcPayload) :
    rowAvoids tpTsKey T (navUtcParsedData t p) := by
  unfold rowAvoids
  rw [navUtc_lookup]
  simp

/-- A NAV-TIMEUTC row stamped `t ≠ T` avoids `T` at the NAV-TIMEUTC
key. -/
theorem navUtc_rowAvoidsNav (T t : Nat) (p : NavUtcPayload) (h : t ≠ T) :
    rowAvoids navTsKey T (navUtcParsedData t p) := by
  unfold rowAvoids
  rw [navUtc_lookupNav]
  intro hc
  injection hc with hc2
  exact h (by exact_mod_cast hc2)

/-- Every TIM-TP row avoids every timestamp at the NAV-TIMEUTC key. -/
theorem timTp_rowAvoidsNav (T t : Nat) (p : TimTpPayload) :
    rowAvoids navTsKey T (timTpParsedData t p) := by
  unfold rowAvoids
  rw [timTp_lookupNav]
  simp

/-- Lookup over an appended row searches the left row first. -/
theorem lookup_append (k : String) (l1 l2 : Row) :
    (l1 ++ l2).lookup k =
      match l1.lookup k with
      | some v => some v
      | none => l2.lookup k := by
  induction l1 with
  | nil => rfl
  | cons a rest ih =>
    rcases a with ⟨ka, va⟩
    simp only [List.cons_append, List.lookup]
    cases h : (k == ka) <;> simp [ih]

/-- Appending two rows that avoid `T` at `k` yields a row avoiding `T`
at `k`. -/
theorem rowAvoids_append (k : String) (T : Nat) (r1 r2 : Row)
    (h1 : rowAvoids k T r1) (h2 : rowAvoids k T r2) : rowAvoids k T (r1 ++ r2) := by
  unfold rowAvoids at h1 h2 ⊢
  rw [lookup_append]
  cases h : r1.lookup k with
  | none => exact h2
  | some v =>
    rw [h] at h1
    exact h1

/-- The cache update preserves avoidance of `T` at a channel key `k`
when the arriving input is not stamped `T`, given that freshly built
rows of either channel with a timestamp other than `T` avoid `T` at
`k` (both channel keys satisfy this). -/
theorem cacheUpdate_avoids (k : String) (T : Nat) (s : EngineState) (inp : Input)
    (hTpRow : ∀ (t : Nat) (p : TimTpPayload), t ≠ T →
      rowAvoids k T (timTpParsedData t p))
    (hNavRow : ∀ (t : Nat) (p : NavUtcPayload), t ≠ T →
      rowAvoids k T (navUtcParsedData t p))
    (h : stateAvoids k T s) (ht : inp.t ≠ T) :
    stateAvoids k T (cacheUpdate s inp) := by
  obtain ⟨hm, htb, hnb, htp, hnv⟩ := h
  unfold cacheUpdate
  rcases inp with ⟨p, t⟩
  cases p with
  | none => exact ⟨hm, htb, hnb, htp, hnv⟩
  | some q =>
    cases q with
    | timTp pq =>
      refine ⟨hm, htb, hnb, ?_, hnv⟩
      intro x hx
      simp only [Option.some.injEq] at hx
      rw [← hx]
      exact hTpRow t pq ht
    | navUtc pq =>
      refine ⟨hm, htb, hnb, htp, ?_⟩
      intro x hx
      simp only [Option.some.injEq] at hx
      rw [← hx]
      exact hNavRow t pq ht
    | other => exact ⟨hm, htb, hnb, htp, hnv⟩

/-- A full step preserves avoidance of `T` at a channel key `k` when
the arriving input is not stamped `T`: every row a step appends comes
from a slot, and slots avoid `T` at `k`. -/
theorem collectStep_avoids (schema : List String) (k : String) (T : Nat)
    (s : EngineState) (inp : Input)
    (hTpRow : ∀ (t : Nat) (p : TimTpPayload), t ≠ T →
      rowAvoids k T (timTpParsedData t p))
    (hNavRow : ∀ (t : Nat) (p : NavUtcPayload), t ≠ T →
      rowAvoids k T (navUtcParsedData t p))
    (h : stateAvoids k T s) (ht : inp.t ≠ T) :
    stateAvoids k T (collectStep schema s inp).1 := by
  obtain ⟨hm, htb, hnb, htp, hnv⟩ :=
    cacheUpdate_avoids k T s inp hTpRow hNavRow h ht
  unfold collectStep
  cases htp2 : (cacheUpdate s inp).tp with
  | none =>
    cases hnv2 : (cacheUpdate s inp).nav <;> simp only [htp2, hnv2] <;>
      exact ⟨hm, htb, hnb, htp, hnv⟩
  | some tpSlot =>
    have hrt : rowAvoids k T tpSlot.2 := htp tpSlot htp2
    cases hnv2 : (cacheUpdate s inp).nav with
    | none =>
      simp only [htp2, hnv2]
      exact ⟨hm, htb, hnb, htp, hnv⟩
    | some navSlot =>
      have hrn : rowAvoids k T navSlot.2 := hnv navSlot hnv2
      simp only [htp2, hnv2]
      split
      · split
        · refine ⟨?_, ?_, ?_, ?_, ?_⟩
          · intro r hr
            rcases List.mem_append.1 hr with hold | hnew
            · exact hm r hold
            · rw [List.mem_singleton.1 hnew]
              exact rowAvoids_append k T tpSlot.2 navSlot.2 hrt hrn
          · intro r hr
            rcases List.mem_append.1 hr with hold | hnew
            · exact htb r hold
            · rw [List.mem_singleton.1 hnew]
              exact hrt
          · intro r hr
            rcases List.mem_append.1 hr with hold | hnew
            · exact hnb r hold
            · rw [List.mem_singleton.1 hnew]
              exact hrn
          · intro x hx
            cases hx
          · intro x hx
            cases hx
        · exact ⟨hm, htb, hnb, htp, hnv⟩
      · split
        · refine ⟨hm, ?_, hnb, ?_, ?_⟩
          · intro r hr
            rcases List.mem_append.1 hr with hold | hnew
            · exact htb r hold
            · rw [List.mem_singleton.1 hnew]
              exact hrt
          · intro x hx
            cases hx
          · intro x hx
            simp only [Option.some.injEq] at hx
            rw [← hx]
            exact hrn
        · refine ⟨hm, htb, ?_, ?_, ?_⟩
          · intro r hr
            rcases List.mem_append.1 hr with hold | hnew
            · exact hnb r hold
            · rw [List.mem_singleton.1 hnew]
              exact hrn
          · intro x hx
            simp only [Option.some.injEq] at hx
            rw [← hx]
            exact hrt
          · intro x hx
            cases hx

/-- A run over inputs none of which is stamped `T` preserves avoidance
of `T` at a channel key `k`, including at an error exit. -/
theorem collectRun_avoids (schema : List String) (k : String) (T : Nat)
    (hTpRow : ∀ (t : Nat) (p : TimTpPayload), t ≠ T →
      rowAvoids k T (timTpParsedData t p))
    (hNavRow : ∀ (t : Nat) (p : NavUtcPayload), t ≠ T →
      rowAvoids k T (navUtcParsedData t p)) :
    ∀ (l : List Input) (s : EngineState), (∀ inp ∈ l, inp.t ≠ T) →
    stateAvoids k T s → stateAvoids k T (collectRun schema s l).1 := by
  intro l
  induction l with
  | nil => intro s _ h; exact h
  | cons i rest ih =>
    intro s hl h
    simp only [collectRun]
    cases hst : collectStep schema s i with
    | mk s2 flag =>
      have h2 : stateAvoids k T s2 := by
        have := collectStep_avoids schema k T s i hTpRow hNavRow h
          (hl i (List.mem_cons_self i rest))
        rwa [hst] at this
      cases flag with
      | false => exact ih s2 (fun inp hmem => hl inp (List.mem_cons_of_mem i hmem)) h2
      | true => exact h2

/-- C1.  The correlation predicate of line 126 drops the days component
of the timedelta: with the TIM-TP slot stamped 0 and a NAV-TIMEUTC
arrival stamped exactly one day later, the true separation is
86400000000 µs ≥ 1000000 µs, yet the engine produces a MergedRecord (and
clears both slots) — against the claim that a merge happens only when
the absolute timestamp difference is below one second, and against the
code's own comment on line 124 that it verifies the packet timestamps
differ by no more than 1 s. -/
theorem mergeHappensDespiteDayGap :
    1000000 ≤ absDiff 0 86400000000 ∧
    (collectStep declaredMergedSchema c1State c1Input).1.merged =
      [timTpParsedData 0 pay0 ++ navUtcParsedData 86400000000 nav0] ∧
    (collectStep declaredMergedSchema c1State c1Input).1.tp = none ∧
    (collectStep declaredMergedSchema c1State c1Input).1.nav = none := by
  refine ⟨by decide, ?_, ?_, ?_⟩ <;> rfl

/-- C2 counterexample.  On an in-window pair the write transaction of
lines 144-148 appends the merged row AND both per-channel rows: the
TIM-TP message appears in the Merged table (its row is the TIM-TP prefix
of the merged row) and simultaneously as a row of the TIM-TP table —
the claim says no message appears in both places. -/
theorem mergedMessageAlsoInChannelTable :
    (collectRun declaredMergedSchema initState c2Inputs).1.merged =
      [timTpParsedData 0 pay0 ++ navUtcParsedData 500000 nav0] ∧
    (collectRun declaredMergedSchema initState c2Inputs).1.tpTable =
      [timTpParsedData 0 pay0] ∧
    (collectRun declaredMergedSchema initState c2Inputs).1.navTable =
      [navUtcParsedData 500000 nav0] := by
  refine ⟨?_, ?_, ?_⟩ <;> rfl

/-- C2 amended.  Every row of the Merged table is the concatenation of a
row present in the TIM-TP table and a row present in the NAV-TIMEUTC
table: a merged message is persisted both inside its MergedRecord and as
a per-channel row, rather than in exactly one place. -/
theorem mergedRowsComeFromChannelTables (schema : List String) (l : List Input)
    (s : EngineState) (e : Bool)
    (hrun : collectRun schema initState l = (s, e)) :
    ∀ m ∈ s.merged, ∃ rt ∈ s.tpTable, ∃ rn ∈ s.navTable, m = rt ++ rn := by
  have h := collectRun_preservedAll schema
    (fun s => ∀ m ∈ s.merged, ∃ rt ∈ s.tpTable, ∃ rn ∈ s.navTable, m = rt ++ rn)
    l (fun s inp _ hp => collectStep_mergedFrom schema s inp hp)
    initState (by intro m hm; cases hm)
  rw [hrun] at h
  exact h

/-- Witness for the C2 amended theorem: the one merged row of a concrete
in-window run decomposes into rows present in the per-channel tables. -/
theorem mergedRowsComeFromChannelTablesWitness :
    ∃ rt ∈ (collectRun declaredMergedSchema initState c9Inputs).1.tpTable,
      ∃ rn ∈ (collectRun declaredMergedSchema initState c9Inputs).1.navTable,
        timTpParsedData 10 pay0 ++ navUtcParsedData 400000 nav0 = rt ++ rn :=
  mergedRowsComeFromChannelTables declaredMergedSchema c9Inputs
    (collectRun declaredMergedSchema initState c9Inputs).1 false rfl
    (timTpParsedData 10 pay0 ++ navUtcParsedData 400000 nav0) (by decide)

/-- C3 counterexample.  Cancellation arrives with exactly the TIM-TP
slot occupied; start's finally block (lines 191-196) saves the three
dataframes as they are, without flushing the packet cache: the pending
ArrivalRecord appears in no persisted table at all — the claim says it
would be flushed to its per-channel table before persistence. -/
theorem pendingRecordLostOnCancel :
    (collectRun declaredMergedSchema initState c3Inputs).1.tp =
      some (0, timTpParsedData 0 pay0) ∧
    (collectRun declaredMergedSchema initState c3Inputs).1.nav = none ∧
    persistedTables declaredMergedSchema c3Inputs = ⟨[], [], []⟩ := by
  refine ⟨?_, ?_, ?_⟩ <;> rfl

/-- C3 amended.  When cancellation arrives with a slot still occupied,
no flush happens: persistence receives the three tables exactly as
accumulated at loop exit (in particular nothing is synthesized into the
Merged table); the pending ArrivalRecord is simply lost. -/
theorem cancelHandsTablesUnflushed (schema : List String) (l : List Input)
    (s : EngineState) (hrun : collectRun schema initState l = (s, false))
    (_hocc : s.tp ≠ none ∨ s.nav ≠ none) :
    persistedTables schema l = tablesOf s := by
  unfold persistedTables
  rw [hrun]

/-- Witness for the C3 amended theorem at a concrete cancelled run. -/
theorem cancelHandsTablesUnflushedWitness :
    persistedTables declaredMergedSchema c3wInputs = tablesOf c3wState :=
  cancelHandsTablesUnflushed declaredMergedSchema c3wInputs c3wState rfl
    (Or.inr (by decide))

/-- C4.  With both slots occupied and the correlation window exceeded
(the arrivals are a full day apart, so Δ = 86400000000 µs ≥ 1000000 µs),
the claim requires exactly the earlier TIM-TP record to be appended to
its own table — never to Merged — with the later NAV-TIMEUTC slot left
occupied; instead the engine merges (line 126 reduces the day gap to
0 µs): a Merged row is produced, the NAV-TIMEUTC table also gains a row,
and the later message's slot is cleared rather than remaining
occupied. -/
theorem windowExceededStillMerges :
    1000000 ≤ absDiff 1 86400000001 ∧
    (collectStep declaredMergedSchema c4State c4Input).1.merged =
      [timTpParsedData 1 pay0 ++ navUtcParsedData 86400000001 nav0] ∧
    (collectStep declaredMergedSchema c4State c4Input).1.navTable =
      [navUtcParsedData 86400000001 nav0] ∧
    (collectStep declaredMergedSchema c4State c4Input).1.nav = none := by
  refine ⟨by decide, ?_, ?_, ?_⟩ <;> rfl

/-- C5.  Latest-wins overwrite, for both channels: while a channel's
slot holds an unflushed record stamped `T` (no table row carries `T`
under that channel's timestamp column) and the other slot is empty, a
newer arrival of the same channel replaces the slot contents without
touching the tables, and afterwards — over any continuation whose
inputs are not stamped `T` — the overwritten record never appears in
its per-channel table, never inside a Merged row, and in no table row
at all. -/
theorem overwrittenRecordNeverPersisted :
    (∀ (schema : List String) (s : EngineState) (T : Nat) (pa pb : TimTpPayload)
       (tb : Nat) (l2 : List Input),
       s.tp = some (T, timTpParsedData T pa) →
       s.nav = none →
       (∀ r ∈ s.merged, rowAvoids tpTsKey T r) →
       (∀ r ∈ s.tpTable, rowAvoids tpTsKey T r) →
       (∀ r ∈ s.navTable, rowAvoids tpTsKey T r) →
       tb ≠ T →
       (∀ inp ∈ l2, inp.t ≠ T) →
       collectStep schema s ⟨some (.timTp pb), tb⟩ =
         ({ s with tp := some (tb, timTpParsedData tb pb) }, false) ∧
       timTpParsedData T pa ∉
         (collectRun schema s (⟨some (.timTp pb), tb⟩ :: l2)).1.tpTable ∧
       (∀ m2 ∈ (collectRun schema s (⟨some (.timTp pb), tb⟩ :: l2)).1.merged,
         ∀ rest : Row, m2 ≠ timTpParsedData T pa ++ rest) ∧
       (∀ r ∈ (collectRun schema s (⟨some (.timTp pb), tb⟩ :: l2)).1.tpTable,
         rowAvoids tpTsKey T r) ∧
       (∀ r ∈ (collectRun schema s (⟨some (.timTp pb), tb⟩ :: l2)).1.merged,
         rowAvoids tpTsKey T r) ∧
       (∀ r ∈ (collectRun schema s (⟨some (.timTp pb), tb⟩ :: l2)).1.navTable,
         rowAvoids tpTsKey T r)) ∧
    (∀ (schema : List String) (s : EngineState) (T : Nat) (qa qb : NavUtcPayload)
       (tb : Nat) (l2 : List Input),
       s.nav = some (T, navUtcParsedData T qa) →
       s.tp = none →
       (∀ r ∈ s.merged, rowAvoids navTsKey T r) →
       (∀ r ∈ s.tpTable, rowAvoids navTsKey T r) →
       (∀ r ∈ s.navTable, rowAvoids navTsKey T r) →
       tb ≠ T →
       (∀ inp ∈ l2, inp.t ≠ T) →
       collectStep schema s ⟨some (.navUtc qb), tb⟩ =
         ({ s with nav := some (tb, navUtcParsedData tb qb) }, false) ∧
       navUtcParsedData T qa ∉
         (collectRun schema s (⟨some (.navUtc qb), tb⟩ :: l2)).1.navTable ∧
       (∀ m2 ∈ (collectRun schema s (⟨some (.navUtc qb), tb⟩ :: l2)).1.merged,
         ∀ (t2 : Nat) (p2 : TimTpPayload),
           m2 ≠ timTpParsedData t2 p2 ++ navUtcParsedData T qa) ∧
       (∀ r ∈ (collectRun schema s (⟨some (.navUtc qb), tb⟩ :: l2)).1.navTable,
         rowAvoids navTsKey T r) ∧
       (∀ r ∈ (collectRun schema s (⟨some (.navUtc qb), tb⟩ :: l2)).1.merged,
         rowAvoids navTsKey T r) ∧
       (∀ r ∈ (collectRun schema s (⟨some (.navUtc qb), tb⟩ :: l2)).1.tpTable,
         rowAvoids navTsKey T r)) := by
  constructor
  · intro schema s T pa pb tb l2 _hslot hnav hm htb hnb hbt hl2
    have hstep : collectStep schema s ⟨some (.timTp pb), tb⟩ =
        ({ s with tp := some (tb, timTpParsedData tb pb) }, false) := by
      unfold collectStep cacheUpdate
      simp only
      rw [hnav]
    have hrun : (collectRun schema s (⟨some (.timTp pb), tb⟩ :: l2)).1 =
        (collectRun schema { s with tp := some (tb, timTpParsedData tb pb) } l2).1 := by
      simp only [collectRun, hstep]
    have havoid2 : stateAvoids tpTsKey T
        { s with tp := some (tb, timTpParsedData tb pb) } := by
      refine ⟨hm, htb, hnb, ?_, ?_⟩
      · intro x hx
        simp only [Option.some.injEq] at hx
        rw [← hx]
        exact timTp_rowAvoids T tb pb hbt
      · intro x hx
        simp only at hx
        rw [hnav] at hx
        cases hx
    have hfin : stateAvoids tpTsKey T
        (collectRun schema s (⟨some (.timTp pb), tb⟩ :: l2)).1 := by
      rw [hrun]
      exact collectRun_avoids schema tpTsKey T
        (fun t p h => timTp_rowAvoids T t p h)
        (fun t p _ => navUtc_rowAvoids T t p)
        l2 _ hl2 havoid2
    obtain ⟨hfm, hft, hfn, _, _⟩ := hfin
    refine ⟨hstep, ?_, ?_, hft, hfm, hfn⟩
    · intro hmem
      have := hft _ hmem
      unfold rowAvoids at this
      exact this (timTp_lookup T pa)
    · intro m2 hmem rest hEq
      have := hfm m2 hmem
      unfold rowAvoids at this
      apply this
      rw [hEq, lookup_append, timTp_lookup]
  · intro schema s T qa qb tb l2 _hslot htp0 hm htb hnb hbt hl2
    have hstep : collectStep schema s ⟨some (.navUtc qb), tb⟩ =
        ({ s with nav := some (tb, navUtcParsedData tb qb) }, false) := by
      unfold collectStep cacheUpdate
      simp only
      rw [htp0]
    have hrun : (collectRun schema s (⟨some (.navUtc qb), tb⟩ :: l2)).1 =
        (collectRun schema { s with nav := some (tb, navUtcParsedData tb qb) } l2).1 := by
      simp only [collectRun, hstep]
    have havoid2 : stateAvoids navTsKey T
        { s with nav := some (tb, navUtcParsedData tb qb) } := by
      refine ⟨hm, htb, hnb, ?_, ?_⟩
      · intro x hx
        simp only at hx
        rw [htp0] at hx
        cases hx
      · intro x hx
        simp only [Option.some.injEq] at hx
        rw [← hx]
        exact navUtc_rowAvoidsNav T tb qb hbt
    have hfin : stateAvoids navTsKey T
        (collectRun schema s (⟨some (.navUtc qb), tb⟩ :: l2)).1 := by
      rw [hrun]
      exact collectRun_avoids schema navTsKey T
        (fun t p _ => timTp_rowAvoidsNav T t p)
        (fun t p h => navUtc_rowAvoidsNav T t p h)
        l2 _ hl2 havoid2
    obtain ⟨hfm, hft, hfn, _, _⟩ := hfin
    refine ⟨hstep, ?_, ?_, hfn, hfm, hft⟩
    · intro hmem
      have := hfn _ hmem
      unfold rowAvoids at this
      exact this (navUtc_lookupNav T qa)
    · intro m2 hmem t2 p2 hEq
      have := hfm m2 hmem
      unfold rowAvoids at this
      apply this
      rw [hEq, lookup_append, timTp_lookupNav]
      exact navUtc_lookupNav T qa

/-- Witness for C5: a concrete overwrite on each channel, followed by
an arrival of the other channel. -/
theorem overwrittenRecordNeverPersistedWitness :
    (collectStep declaredMergedSchema c5wState ⟨some (.timTp pay0), 5⟩ =
       ({ c5wState with tp := some (5, timTpParsedData 5 pay0) }, false) ∧
     timTpParsedData 0 pay0 ∉
       (collectRun declaredMergedSchema c5wState
         (⟨some (.timTp pay0), 5⟩ :: c5wTail)).1.tpTable ∧
     (∀ m2 ∈ (collectRun declaredMergedSchema c5wState
         (⟨some (.timTp pay0), 5⟩ :: c5wTail)).1.merged,
       ∀ rest : Row, m2 ≠ timTpParsedData 0 pay0 ++ rest) ∧
     (∀ r ∈ (collectRun declaredMergedSchema c5wState
         (⟨some (.timTp pay0), 5⟩ :: c5wTail)).1.tpTable, rowAvoids tpTsKey 0 r) ∧
     (∀ r ∈ (collectRun declaredMergedSchema c5wState
         (⟨some (.timTp pay0), 5⟩ :: c5wTail)).1.merged, rowAvoids tpTsKey 0 r) ∧
     (∀ r ∈ (collectRun declaredMergedSchema c5wState
         (⟨some (.timTp pay0), 5⟩ :: c5wTail)).1.navTable, rowAvoids tpTsKey 0 r)) ∧
    (collectStep declaredMergedSchema c5wStateNav ⟨some (.navUtc nav0), 5⟩ =
       ({ c5wStateNav with nav := some (5, navUtcParsedData 5 nav0) }, false) ∧
     navUtcParsedData 0 nav0 ∉
       (collectRun declaredMergedSchema c5wStateNav
         (⟨some (.navUtc nav0), 5⟩ :: c5wTailNav)).1.navTable ∧
     (∀ m2 ∈ (collectRun declaredMergedSchema c5wStateNav
         (⟨some (.navUtc nav0), 5⟩ :: c5wTailNav)).1.merged,
       ∀ (t2 : Nat) (p2 : TimTpPayload),
         m2 ≠ timTpParsedData t2 p2 ++ navUtcParsedData 0 nav0) ∧
     (∀ r ∈ (collectRun declaredMergedSchema c5wStateNav
         (⟨some (.navUtc nav0), 5⟩ :: c5wTailNav)).1.navTable, rowAvoids navTsKey 0 r) ∧
     (∀ r ∈ (collectRun declaredMergedSchema c5wStateNav
         (⟨some (.navUtc nav0), 5⟩ :: c5wTailNav)).1.merged, rowAvoids navTsKey 0 r) ∧
     (∀ r ∈ (collectRun declaredMergedSchema c5wStateNav
         (⟨some (.navUtc nav0), 5⟩ :: c5wTailNav)).1.tpTable, rowAvoids navTsKey 0 r)) :=
  ⟨overwrittenRecordNeverPersisted.1 declaredMergedSchema c5wState 0 pay0 pay0 5 c5wTail
     rfl rfl (by intro r hr; cases hr) (by intro r hr; cases hr)
     (by intro r hr; cases hr) (by decide) (by decide),
   overwrittenRecordNeverPersisted.2 declaredMergedSchema c5wStateNav 0 nav0 nav0 5 c5wTailNav
     rfl rfl (by intro r hr; cases hr) (by intro r hr; cases hr)
     (by intro r hr; cases hr) (by decide) (by decide)⟩

/-- C6.  First: whenever a merge is attempted (both slots occupied after
the cache update, timestamps inside the window as line 127 computes it)
and the merged key set differs from the declared schema, the step raises
the fatal KeyError before any append, leaving all three tables exactly
as they were before the triggering message.  Second: every MergedRecord
row appended by any run has a key set exactly equal to the declared
schema. -/
theorem schemaMismatchFatalBeforeAppend (schema : List String) :
    (∀ (s : EngineState) (inp : Input) (tpSlot navSlot : Nat × Row),
       (cacheUpdate s inp).tp = some tpSlot →
       (cacheUpdate s inp).nav = some navSlot →
       microsecTimeDiff tpSlot.1 navSlot.1 < 1000000 →
       keySetEq (rowKeys (tpSlot.2 ++ navSlot.2)) schema = false →
       collectStep schema s inp = (cacheUpdate s inp, true) ∧
       tablesOf (cacheUpdate s inp) = tablesOf s) ∧
    (∀ (l : List Input) (s : EngineState) (e : Bool),
       collectRun schema initState l = (s, e) →
       ∀ m ∈ s.merged, (rowKeys m).toFinset = schema.toFinset) := by
  constructor
  · intro s inp tpSlot navSlot htp hnv hwin hkeys
    constructor
    · unfold collectStep
      rw [htp, hnv]
      simp only [hwin, if_true, hkeys]
      simp
    · exact cacheUpdate_tablesOf s inp
  · intro l s e hrun
    have h := collectRun_preservedAll schema
      (fun s => ∀ m ∈ s.merged, (rowKeys m).toFinset = schema.toFinset)
      l (fun s inp _ hp => collectStep_mergedKeys schema s inp hp)
      initState (by intro m hm; cases hm)
    rw [hrun] at h
    exact h

/-- Witness for C6 at a concrete mismatching schema. -/
theorem schemaMismatchFatalBeforeAppendWitness :
    (collectStep ["x"] c6wState c6wInput = (cacheUpdate c6wState c6wInput, true) ∧
     tablesOf (cacheUpdate c6wState c6wInput) = tablesOf c6wState) ∧
    (∀ m ∈ (initState : EngineState).merged,
      (rowKeys m).toFinset = (["x"] : List String).toFinset) :=
  ⟨(schemaMismatchFatalBeforeAppend ["x"]).1 c6wState c6wInput
      (7, timTpParsedData 7 pay0) (8, navUtcParsedData 8 nav0)
      rfl rfl (by decide) (by decide),
   (schemaMismatchFatalBeforeAppend ["x"]).2 [] initState false rfl⟩

/-- C7.  verify_dataflow reads at most 1000 messages.  If it succeeds at
loop index `n`, both identities were observed within the first n+1 reads
and no shorter prefix had shown both (success fires as soon as both have
been seen).  If it raises, each flag of the diagnostic says exactly
whether its identity was observed among the 1000 reads and at least one
identity is missing; the raise propagates out of start before any
collection, so no tables are produced. -/
theorem verifyDataflowBoundedAndDiagnostic (reads : Nat → Option ParsedData)
    (schema : List String) (l : List Input) :
    (∀ n, verifyDataflow reads = .ok n →
       n < 1000 ∧
       seenWithin reads hitNav (n+1) = true ∧
       seenWithin reads hitTp (n+1) = true ∧
       ∀ m, m < n →
         (seenWithin reads hitNav (m+1) && seenWithin reads hitTp (m+1)) = false) ∧
    (∀ fn ft, verifyDataflow reads = .error (fn, ft) →
       fn = seenWithin reads hitNav 1000 ∧ ft = seenWithin reads hitTp 1000 ∧
       (fn = false ∨ ft = false)) ∧
    (∀ e, verifyDataflow reads = .error e →
       startModel schema reads l = .error e) := by
  have htake : ∀ m : Nat, m + 1 ≤ 1000 →
      ((List.range 1000).map reads).take (m+1) = (List.range (m+1)).map reads := by
    intro m hm
    rw [← List.map_take, List.take_range]
    have hmin : min (m+1) 1000 = m+1 := by omega
    rw [hmin]
  refine ⟨?_, ?_, ?_⟩
  · intro n h
    obtain ⟨k, hk, hn, hflags, hmin⟩ := verifyList_ok _ false false 0 n h
    have hlen : ((List.range 1000).map reads).length = 1000 := by simp
    rw [hlen] at hk
    have hnk : n = k := by omega
    subst hnk
    rw [htake n (by omega)] at hflags
    have hflags2 := hflags
    simp only [Bool.false_or, Bool.and_eq_true] at hflags2
    refine ⟨by omega, hflags2.1, hflags2.2, ?_⟩
    intro m hm
    have := hmin m (by omega)
    rw [htake m (by omega)] at this
    simpa only [Bool.false_or] using this
  · intro fn ft h
    obtain ⟨h1, h2, h3⟩ := verifyList_error _ false false 0 fn ft rfl h
    refine ⟨by simpa using h1, by simpa using h2, ?_⟩
    cases fn
    · exact Or.inl rfl
    · cases ft
      · exact Or.inr rfl
      · cases h3
  · intro e h
    unfold startModel
    rw [h]

set_option maxRecDepth 8000 in
/-- Witness for C7 on a stream showing TIM-TP then NAV-TIMEUTC. -/
theorem verifyDataflowBoundedAndDiagnosticWitness :
    1 < 1000 ∧ seenWithin wReads hitNav 2 = true ∧ seenWithin wReads hitTp 2 = true ∧
    ∀ m, m < 1 →
      (seenWithin wReads hitNav (m+1) && seenWithin wReads hitTp (m+1)) = false :=
  (verifyDataflowBoundedAndDiagnostic wReads declaredMergedSchema []).1 1 (by rfl)

/-- C8.  An input whose decoded message is absent (decode failure or
read timeout) or of an identity outside TIM-TP / NAV-TIMEUTC leaves the
engine state of any completed run — both slots and all three tables —
unchanged, and the step does not raise. -/
theorem irrelevantInputLeavesStateUnchanged (schema : List String) (l : List Input)
    (s : EngineState) (inp : Input)
    (hrun : collectRun schema initState l = (s, false))
    (hinp : inp.parsed = none ∨ inp.parsed = some .other) :
    collectStep schema s inp = (s, false) := by
  have hone := runAtMostOne schema l s hrun
  have hcu : cacheUpdate s inp = s := by
    unfold cacheUpdate
    rcases hinp with h | h <;> rw [h]
  unfold collectStep
  rw [hcu]
  rcases hone with h | h
  · rw [h]
  · rw [h]
    cases s.tp <;> rfl

/-- Witness for C8: a timed-out read after one TIM-TP arrival changes
nothing. -/
theorem irrelevantInputLeavesStateUnchangedWitness :
    collectStep declaredMergedSchema c8wState ⟨none, 99⟩ = (c8wState, false) :=
  irrelevantInputLeavesStateUnchanged declaredMergedSchema c8wInputs c8wState
    ⟨none, 99⟩ rfl (Or.inl rfl)

/-- C9.  The engine is a pure function of the supplied messages and
timestamps: two runs of the same finite input sequence from the fresh
state produce the same outcome, in particular identical contents of all
three tables. -/
theorem collectRunDeterministic (schema : List String) (l : List Input)
    (o1 o2 : EngineState × Bool)
    (h1 : collectRun schema initState l = o1)
    (h2 : collectRun schema initState l = o2) :
    tablesOf o1.1 = tablesOf o2.1 ∧ o1 = o2 := by
  subst h1
  subst h2
  exact ⟨rfl, rfl⟩

/-- Witness for C9 on a concrete in-window pair. -/
theorem collectRunDeterministicWitness :
    tablesOf (collectRun declaredMergedSchema initState c9Inputs).1 =
      tablesOf (collectRun declaredMergedSchema initState c9Inputs).1 ∧
    collectRun declaredMergedSchema initState c9Inputs =
      collectRun declaredMergedSchema initState c9Inputs :=
  collectRunDeterministic declaredMergedSchema c9Inputs _ _ rfl rfl

/-- C10.  After the engine finishes processing any single message
without raising, at most one of the two slots is occupied — both for a
single step and for the state reached by any completed run from the
fresh state; both slots are simultaneously occupied only transiently
inside a step, never at the point where the engine blocks for the next
message. -/
theorem atMostOnePendingSlotOccupied :
    (∀ (schema : List String) (s : EngineState) (inp : Input) (s2 : EngineState),
        collectStep schema s inp = (s2, false) → s2.tp = none ∨ s2.nav = none) ∧
    (∀ (schema : List String) (l : List Input) (s : EngineState),
        collectRun schema initState l = (s, false) → s.tp = none ∨ s.nav = none) :=
  ⟨fun schema s inp s2 h => collectStep_atMostOne schema s inp s2 h,
   fun schema l s h => runAtMostOne schema l s h⟩

/-- Witness for C10 after one TIM-TP arrival. -/
theorem atMostOnePendingSlotOccupiedWitness :
    w10State.tp = none ∨ w10State.nav = none :=
  atMostOnePendingSlotOccupied.2 declaredMergedSchema w10Inputs w10State rfl

end Qerr
